import Mathlib

/-!
Verification of the contact-book core of `src/classes.py`: field validators
(`Phone`, `Birthday`), `Record` phone operations, and
`AddressBook.get_upcoming_birthdays`.

The Python code is embedded shallowly.  Python `str` is Lean `String`
(a wrapper around `List Char`); most character-level work happens on
`List Char`.  Python exceptions become `Option`/explicit error components.
`datetime` values are modelled as a calendar date plus a seconds-of-day
component (microseconds are irrelevant to every statement proved here).
-/

namespace Classes

/-! ### Python string primitives -/

/-- Whitespace characters removed by Python `str.strip()` (ASCII subset;
Unicode whitespace beyond these does not occur in any input considered). -/
def isPyWhitespace (c : Char) : Bool :=
  c = ' ' || c = '\t' || c = '\n' || c = '\x0d' || c = '\x0b' || c = '\x0c'

/-- Python `str.strip()`: drop leading and trailing whitespace. -/
def pyStrip (l : List Char) : List Char :=
  ((l.dropWhile isPyWhitespace).reverse.dropWhile isPyWhitespace).reverse

/-- A single character accepted by Python `str.isdigit()`.  Python's test is
Unicode-aware: it accepts the ASCII digits and every other character of
category Nd (and some No), e.g. the Arabic-Indic digits U+0660..U+0669, the
Eastern Arabic-Indic digits U+06F0..U+06F9 and the superscripts ¹ ² ³.  The
model covers the ASCII digits plus those ranges, which is faithful on every
character appearing in this development; Python accepts further Unicode
digit characters not listed here. -/
def pyIsDigitChar (c : Char) : Bool :=
  c.isDigit
  || (0x660 ≤ c.toNat && c.toNat ≤ 0x669)
  || (0x6F0 ≤ c.toNat && c.toNat ≤ 0x6F9)
  || c.toNat = 0xB9 || c.toNat = 0xB2 || c.toNat = 0xB3

/-- Python `str.isdigit()`: false on the empty string, otherwise every
character must be a digit. -/
def pyIsdigit (l : List Char) : Bool :=
  !l.isEmpty && l.all pyIsDigitChar

/-! ### Field validators (classes.py lines 5-66) -/

/-- `Name` field (classes.py line 12). -/
structure Name where
  value : String
deriving DecidableEq, Repr

/-- `Phone` field (classes.py line 20). -/
structure Phone where
  value : String
deriving DecidableEq, Repr

/-- `Phone.__init__` (classes.py lines 21-26): strip, then require
`isdigit()` and length exactly 10; on failure raise `ValueError`
(modelled as `none`). -/
def makePhone (raw : String) : Option Phone :=
  let phone_str := pyStrip raw.data
  if pyIsdigit phone_str && phone_str.length = 10 then
    some ⟨String.mk phone_str⟩
  else
    none

/-- `Birthday` field (classes.py line 28). -/
structure Birthday where
  value : String
deriving DecidableEq, Repr

/-- The delimiter class of the regex in `_standardize_date_format`
(classes.py line 42): space, `-`, `/`, `.`, backslash, comma, tab,
newline, and the six bracket characters. -/
def isDelim (c : Char) : Bool :=
  c = ' ' || c = '-' || c = '/' || c = '.' || c = '\\' || c = ',' ||
  c = '\t' || c = '\n' || c = '(' || c = ')' || c = '[' || c = ']' ||
  c = '{' || c = '}'

/-- The `re.sub` call of classes.py line 42: replace every maximal run of
delimiter characters by a single dash. -/
def collapseDelims : List Char → List Char
  | [] => []
  | [c] => if isDelim c then ['-'] else [c]
  | c :: d :: rest =>
    if isDelim c && isDelim d then collapseDelims (d :: rest)
    else (if isDelim c then '-' else c) :: collapseDelims (d :: rest)

/-- `.strip('-')` applied after the substitution (classes.py line 42). -/
def stripDashes (l : List Char) : List Char :=
  ((l.dropWhile (· = '-')).reverse.dropWhile (· = '-')).reverse

/-- The standardized character sequence of classes.py line 42. -/
def standardized (l : List Char) : List Char :=
  stripDashes (collapseDelims l)

/-- Split a character list on `-` (the literal separators of the strptime
patterns; after `standardized` the fields contain no dash). -/
def splitDash : List Char → List (List Char)
  | [] => [[]]
  | c :: rest =>
    if c = '-' then [] :: splitDash rest
    else
      match splitDash rest with
      | [] => [[c]]
      | g :: gs => (c :: g) :: gs

/-- Numeric value of a digit string. -/
def natOfDigits (l : List Char) : Nat :=
  l.foldl (fun a c => a * 10 + (c.toNat - 48)) 0

/-- CPython strptime `%Y`: exactly four ASCII digits. -/
def parseYearField (l : List Char) : Option Nat :=
  if l.length = 4 && l.all Char.isDigit then some (natOfDigits l) else none

/-- CPython strptime `%m` (regex `1[0-2]|0[1-9]|[1-9]`): one or two ASCII
digits with value 1..12. -/
def parseMonthField (l : List Char) : Option Nat :=
  if (l.length = 1 || l.length = 2) && l.all Char.isDigit then
    let v := natOfDigits l
    if 1 ≤ v && v ≤ 12 then some v else none
  else none

/-- CPython strptime `%d` (regex `3[01]|[12]\d|0[1-9]|[1-9]`): one or two
ASCII digits with value 1..31. -/
def parseDayField (l : List Char) : Option Nat :=
  if (l.length = 1 || l.length = 2) && l.all Char.isDigit then
    let v := natOfDigits l
    if 1 ≤ v && v ≤ 31 then some v else none
  else none

/-- Gregorian leap-year test (as in CPython `datetime`). -/
def isLeap (y : Nat) : Bool :=
  y % 4 = 0 && (y % 100 ≠ 0 || y % 400 = 0)

/-- Number of days in a month (CPython `_days_in_month`). -/
def daysInMonth (y m : Nat) : Nat :=
  if m = 2 then (if isLeap y then 29 else 28)
  else if m = 4 || m = 6 || m = 9 || m = 11 then 30
  else 31

/-- The `datetime` date constructor's validity check (`MINYEAR = 1`,
`MAXYEAR = 9999`); returns the y/m/d triple when the date is valid. -/
def mkDate (y m d : Nat) : Option (Nat × Nat × Nat) :=
  if 1 ≤ y && y ≤ 9999 && 1 ≤ m && m ≤ 12 && 1 ≤ d && d ≤ daysInMonth y m then
    some (y, m, d)
  else none

/-- `datetime.strptime(s, "%Y-%m-%d")` restricted to its success value's
date: year, month, day. -/
def parseYMDf (l : List Char) : Option (Nat × Nat × Nat) :=
  match splitDash l with
  | [a, b, c] => do
    let y ← parseYearField a
    let m ← parseMonthField b
    let d ← parseDayField c
    mkDate y m d
  | _ => none

/-- `datetime.strptime(s, "%d-%m-%Y")`. -/
def parseDMYf (l : List Char) : Option (Nat × Nat × Nat) :=
  match splitDash l with
  | [a, b, c] => do
    let d ← parseDayField a
    let m ← parseMonthField b
    let y ← parseYearField c
    mkDate y m d
  | _ => none

/-- `datetime.strptime(s, "%m-%d-%Y")`. -/
def parseMDYf (l : List Char) : Option (Nat × Nat × Nat) :=
  match splitDash l with
  | [a, b, c] => do
    let m ← parseMonthField a
    let d ← parseDayField b
    let y ← parseYearField c
    mkDate y m d
  | _ => none

/-- The `formats_to_try` loop of classes.py lines 45-56: first pattern that
parses wins. -/
def tryFormats (l : List Char) : Option (Nat × Nat × Nat) :=
  match parseYMDf l with
  | some r => some r
  | none =>
    match parseDMYf l with
    | some r => some r
    | none => parseMDYf l

/-- A decimal digit character. -/
def digitChar (k : Nat) : Char :=
  match k with
  | 0 => '0' | 1 => '1' | 2 => '2' | 3 => '3' | 4 => '4'
  | 5 => '5' | 6 => '6' | 7 => '7' | 8 => '8' | _ => '9'

/-- Zero-padded fixed-width decimal rendering (strftime `%Y`/`%m`/`%d`). -/
def padNum : Nat → Nat → List Char
  | 0, _ => []
  | w + 1, n => padNum w (n / 10) ++ [digitChar (n % 10)]

/-- `parsed_date.strftime("%Y-%m-%d")` (classes.py line 54). -/
def dateStr (y m d : Nat) : String :=
  String.mk (padNum 4 y ++ '-' :: (padNum 2 m ++ '-' :: padNum 2 d))

/-- `Birthday._standardize_date_format` (classes.py lines 39-58): collapse
delimiters, strip dashes, try the three formats in order, re-render
canonically; `none` models the trailing `raise ValueError`. -/
def standardize_date_format (s : String) : Option String :=
  (tryFormats (standardized s.data)).map (fun r => dateStr r.1 r.2.1 r.2.2)

/-- `Birthday.__init__` (classes.py lines 29-37): strip, standardize, then
re-validate the canonical string with `strptime(_, "%Y-%m-%d")`; any
`ValueError` on the way is an `InvalidBirthday` failure (`none`). -/
def makeBirthday (raw : String) : Option Birthday :=
  match standardize_date_format (String.mk (pyStrip raw.data)) with
  | none => none
  | some c => if (parseYMDf c.data).isSome then some ⟨c⟩ else none

/-- `Birthday.display_format` (classes.py lines 60-66): render the stored
value as `DD.MM.YYYY`, falling back to the raw value when it fails to
parse. -/
def display_format (b : Birthday) : String :=
  match parseYMDf b.value.data with
  | some (y, m, d) => String.mk (padNum 2 d ++ '.' :: (padNum 2 m ++ '.' :: padNum 4 y))
  | none => b.value

/-! ### Record (classes.py lines 68-99) -/

/-- One contact: a name, an ordered list of phones (duplicates permitted)
and an optional birthday (`Record.__init__`, classes.py lines 69-72). -/
structure Record where
  name : Name
  phones : List Phone
  birthday : Option Birthday
deriving DecidableEq, Repr

/-- `Record.add_phone` (classes.py lines 79-80): validate and append; the
failing case raises before the append, leaving the record unchanged, so the
result pairs the post-state with the error indicator. -/
def add_phone (r : Record) (raw : String) : Record × Option Unit :=
  match makePhone raw with
  | some p => ({ r with phones := r.phones ++ [p] }, some ())
  | none => (r, none)

/-- `Record.add_birthday` (classes.py lines 82-84): `self.birthday =
Birthday(birthday)`.  Python evaluates `Birthday(birthday)` before the
assignment, so a `ValueError` (second component `none`) leaves the record
as it was. -/
def add_birthday (r : Record) (raw : String) : Record × Option Unit :=
  match makeBirthday raw with
  | some b => ({ r with birthday := some b }, some ())
  | none => (r, none)

/-- `Record.find_phone` (classes.py lines 86-89): first phone whose value
equals the argument. -/
def find_phone (r : Record) (phone : String) : Option Phone :=
  r.phones.find? (fun p => p.value = phone)

/-- In-place mutation of the first phone object whose value is `old`
(the effect of `phone_to_edit.value = new_phone` on the list). -/
def replaceFirst : List Phone → String → String → List Phone
  | [], _, _ => []
  | p :: rest, old, nv =>
    if p.value = old then ⟨nv⟩ :: rest else p :: replaceFirst rest old nv

/-- `Record.edit_phone` (classes.py lines 91-96): locate via `find_phone`;
if found, overwrite that phone's value with `new_phone` (no validation);
otherwise raise `ValueError` (modelled as `none`). -/
def edit_phone (r : Record) (old_phone new_phone : String) : Option Record :=
  match find_phone r old_phone with
  | some _ => some { r with phones := replaceFirst r.phones old_phone new_phone }
  | none => none

/-! ### Calendar arithmetic (CPython `datetime` internals) -/

/-- Days of the year strictly before month `m`, in year `y`
(CPython `_days_before_month`). -/
def daysBeforeMonth (y m : Nat) : Nat :=
  (match m with
   | 1 => 0 | 2 => 31 | 3 => 59 | 4 => 90 | 5 => 120 | 6 => 151
   | 7 => 181 | 8 => 212 | 9 => 243 | 10 => 273 | 11 => 304 | _ => 334)
  + (if 2 < m && isLeap y then 1 else 0)

/-- Proleptic-Gregorian ordinal of a date, with `0001-01-01` as day 1
(CPython `date.toordinal`). -/
def toOrdinal (y m d : Nat) : Nat :=
  365 * (y - 1) + ((y - 1) / 4 - (y - 1) / 100 + (y - 1) / 400)
    + daysBeforeMonth y m + d

/-- A `datetime` at midnight: what `strptime("...", "%Y-%m-%d")` and the
`replace` calls of `get_upcoming_birthdays` produce. -/
structure PyDate where
  year : Nat
  month : Nat
  day : Nat
deriving DecidableEq, Repr

/-- `date.weekday()`: Monday = 0 .. Sunday = 6. -/
def weekday (n : PyDate) : Nat :=
  (toOrdinal n.year n.month n.day + 6) % 7

/-- The value of `datetime.today()`: a calendar date plus the current
time-of-day in seconds (`0 ≤ secs < 86400`; sub-second precision is
irrelevant to everything proved here). -/
structure PyDateTime where
  year : Nat
  month : Nat
  day : Nat
  secs : Nat
deriving DecidableEq, Repr

/-- Seconds since the epoch of the ordinal count, for `datetime`
comparison and subtraction. -/
def dtSeconds (t : PyDateTime) : Nat :=
  toOrdinal t.year t.month t.day * 86400 + t.secs

/-- `next_birthday < today` (classes.py line 127): `datetime` comparison;
`next_birthday` is at midnight, `today` carries the time of day. -/
def dtLt (n : PyDate) (t : PyDateTime) : Bool :=
  toOrdinal n.year n.month n.day * 86400 < dtSeconds t

/-- `birthday.replace(year=Y)` (classes.py lines 124 and 128): keep month
and day, validity re-checked by the `datetime` constructor (`ValueError`
modelled as `none`). -/
def pyReplaceYear (m d Y : Nat) : Option PyDate :=
  if 1 ≤ Y && Y ≤ 9999 && 1 ≤ m && m ≤ 12 && 1 ≤ d && d ≤ daysInMonth Y m then
    some ⟨Y, m, d⟩
  else none

/-- `next_birthday.replace(day=d')` (classes.py line 133). -/
def pyReplaceDay (n : PyDate) (d' : Nat) : Option PyDate :=
  if 1 ≤ d' && d' ≤ daysInMonth n.year n.month then
    some ⟨n.year, n.month, d'⟩
  else none

/-! ### AddressBook.get_upcoming_birthdays (classes.py lines 112-150) -/

/-- Lines 124-128: set the birthday's year to the current year and, if that
occurrence is already in the past (`<` against the full `datetime`), to the
next year.  Either `replace` may raise (Feb 29), modelled as `none`. -/
def yearAdjust (today : PyDateTime) (m d : Nat) : Option PyDate :=
  match pyReplaceYear m d today.year with
  | none => none
  | some n1 => if dtLt n1 today then pyReplaceYear m d (today.year + 1) else some n1

/-- Lines 130-133: if the occurrence falls on Saturday (5) or Sunday (6),
add `7 - weekday` to the day-of-month field; `replace(day=...)` raises on
an out-of-range day, modelled as `none`. -/
def weekendShift (n : PyDate) : Option PyDate :=
  if weekday n = 5 || weekday n = 6 then
    pyReplaceDay n (n.day + (7 - weekday n))
  else some n

/-- `(next_birthday - today).days` (classes.py line 136): `timedelta.days`
is the floor of the difference in days. -/
def deltaDays (n : PyDate) (today : PyDateTime) : Int :=
  Int.fdiv ((toOrdinal n.year n.month n.day : Int) * 86400 - (dtSeconds today : Int)) 86400

/-- One result row of `get_upcoming_birthdays` (classes.py lines 140-144). -/
structure Entry where
  name : String
  birthday : String
  days_until : Int
deriving DecidableEq, Repr

/-- The loop body of `get_upcoming_birthdays` for one `(name, record)` item
(classes.py lines 117-148): any `ValueError` along the way is caught by the
`except` on line 146 and the record is skipped (`none`). -/
def processRecord (today : PyDateTime) (pair : String × Record) : Option Entry :=
  match pair.2.birthday with
  | none => none
  | some bday =>
    match parseYMDf bday.value.data with
    | none => none
    | some (_, bm, bd) =>
      match yearAdjust today bm bd with
      | none => none
      | some n2 =>
        match weekendShift n2 with
        | none => none
        | some n3 =>
          let delta := deltaDays n3 today
          if 0 ≤ delta && delta ≤ 7 then
            some ⟨pair.1, display_format bday, delta⟩
          else none

/-- `AddressBook.get_upcoming_birthdays` (classes.py lines 112-150).  The
underlying dict iterates in insertion order, so the book is a list of
`(name, record)` pairs.  The Python method takes no parameter: `today` here
is the value `datetime.today()` returns at line 115 — the ambient clock
reading, made explicit so the function can be stated at all. -/
def get_upcoming_birthdays (book : List (String × Record)) (today : PyDateTime) :
    List Entry :=
  book.filterMap (processRecord today)

/-! ### Derived predicates -/

/-- The `Phone` invariant stated by the specification:
`isDigitsOnly(value) ∧ length(value) == 10` (ASCII digits). -/
def phoneInvariant (s : String) : Prop :=
  s.data.all Char.isDigit = true ∧ s.length = 10

/-- The canonical `YYYY-MM-DD` shape: four digits, dash, two digits, dash,
two digits. -/
def canonicalShape (s : String) : Prop :=
  ∃ ys ms ds : List Char,
    s.data = ys ++ '-' :: (ms ++ '-' :: ds) ∧
    ys.length = 4 ∧ ms.length = 2 ∧ ds.length = 2 ∧
    (ys ++ ms ++ ds).all Char.isDigit = true

/-- A ten-character string of Arabic-Indic zero digits (U+0660): every
character satisfies Python `str.isdigit()` but none is an ASCII digit. -/
def arabTen : String := String.mk (List.replicate 10 (Char.ofNat 1632))

/-! ### Helper lemmas -/

theorem digitChar_isDigit (k : Nat) : (digitChar k).isDigit = true := by
  unfold digitChar
  split <;> decide

theorem padNum_length (w : Nat) : ∀ n, (padNum w n).length = w := by
  induction w with
  | zero => intro n; rfl
  | succ w ih => intro n; simp [padNum, ih]

theorem padNum_digits (w : Nat) : ∀ n, ∀ c ∈ padNum w n, c.isDigit = true := by
  induction w with
  | zero => intro n c hc; simp [padNum] at hc
  | succ w ih =>
    intro n c hc
    simp only [padNum, List.mem_append, List.mem_singleton] at hc
    rcases hc with hc | hc
    · exact ih _ c hc
    · subst hc; exact digitChar_isDigit _

theorem dateStr_shape (y m d : Nat) : canonicalShape (dateStr y m d) := by
  refine ⟨padNum 4 y, padNum 2 m, padNum 2 d, rfl, padNum_length 4 y,
    padNum_length 2 m, padNum_length 2 d, ?_⟩
  rw [List.all_eq_true]
  intro c hc
  simp only [List.mem_append] at hc
  rcases hc with (hc | hc) | hc
  · exact padNum_digits 4 y c hc
  · exact padNum_digits 2 m c hc
  · exact padNum_digits 2 d c hc

theorem mem_pyStrip {c : Char} {l : List Char} (h : c ∈ pyStrip l) : c ∈ l := by
  unfold pyStrip at h
  rw [List.mem_reverse] at h
  have h2 := (List.dropWhile_sublist isPyWhitespace).mem h
  rw [List.mem_reverse] at h2
  exact (List.dropWhile_sublist isPyWhitespace).mem h2

theorem pyIsDigitChar_ascii (c : Char) (h : c.toNat < 128) :
    pyIsDigitChar c = c.isDigit := by
  have h1 : ¬ (1632 ≤ c.toNat) := by omega
  have h2 : ¬ (1776 ≤ c.toNat) := by omega
  have h3 : c.toNat ≠ 185 := by omega
  have h4 : c.toNat ≠ 178 := by omega
  have h5 : c.toNat ≠ 179 := by omega
  simp [pyIsDigitChar, h1, h2, h3, h4, h5]

theorem all_congr_chars (l : List Char) (f g : Char → Bool)
    (h : ∀ c ∈ l, f c = g c) : l.all f = l.all g := by
  induction l with
  | nil => rfl
  | cons a as ih =>
    simp only [List.all_cons, h a (List.mem_cons_self a as),
      ih (fun c hc => h c (List.mem_cons_of_mem a hc))]

theorem replaceFirst_mem (l : List Phone) (old nv : String)
    (h : ∃ p ∈ l, p.value = old) : (⟨nv⟩ : Phone) ∈ replaceFirst l old nv := by
  induction l with
  | nil => simp at h
  | cons p rest ih =>
    by_cases hp : p.value = old
    · simp [replaceFirst, hp]
    · simp only [replaceFirst, if_neg hp]
      rcases h with ⟨q, hq, hqv⟩
      rcases List.mem_cons.1 hq with rfl | hq
      · exact absurd hqv hp
      · exact List.mem_cons_of_mem _ (ih ⟨q, hq, hqv⟩)

theorem replaceFirst_subset (l : List Phone) (old nv : String) :
    ∀ p ∈ replaceFirst l old nv, p ∈ l ∨ p = (⟨nv⟩ : Phone) := by
  induction l with
  | nil => intro p hp; simp [replaceFirst] at hp
  | cons q rest ih =>
    intro p hp
    by_cases hq : q.value = old
    · simp only [replaceFirst, if_pos hq] at hp
      rcases List.mem_cons.1 hp with rfl | hp
      · exact Or.inr rfl
      · exact Or.inl (List.mem_cons_of_mem _ hp)
    · simp only [replaceFirst, if_neg hq] at hp
      rcases List.mem_cons.1 hp with rfl | hp
      · exact Or.inl (List.mem_cons_self _ _)
      · rcases ih p hp with h | h
        · exact Or.inl (List.mem_cons_of_mem _ h)
        · exact Or.inr h

/-! ### Claim theorems -/

/-- C6: `makeBirthday` normalizes delimiters and tries `YYYY-MM-DD`,
`DD-MM-YYYY`, `MM-DD-YYYY` in that order, the first valid date winning:
each of `"1990-06-15"`, `"1990.06.15"`, `"15-06-1990"`, `"06-15-1990"`
normalizes to canonical `"1990-06-15"`; the ambiguous `"15-06-1990"` is
read day-first (15 June 1990) because `DD-MM-YYYY` is attempted before
`MM-DD-YYYY`, and in general a `YYYY-MM-DD` parse pre-empts `DD-MM-YYYY`,
which pre-empts `MM-DD-YYYY`. -/
theorem c6_format_order :
    makeBirthday "1990-06-15" = some ⟨"1990-06-15"⟩ ∧
    makeBirthday "1990.06.15" = some ⟨"1990-06-15"⟩ ∧
    makeBirthday "15-06-1990" = some ⟨"1990-06-15"⟩ ∧
    makeBirthday "06-15-1990" = some ⟨"1990-06-15"⟩ ∧
    parseDMYf "15-06-1990".data = some (1990, 6, 15) ∧
    (∀ l r, parseYMDf l = some r → tryFormats l = some r) ∧
    (∀ l r, parseYMDf l = none → parseDMYf l = some r → tryFormats l = some r) := by
  refine ⟨by decide, by decide, by decide, by decide, by decide, ?_, ?_⟩
  · intro l r h
    simp [tryFormats, h]
  · intro l r h1 h2
    simp [tryFormats, h1, h2]

/-- Witness for the order conjuncts of C6 at the ambiguous input
`"15-06-1990"`. -/
theorem c6_format_order_witness :
    tryFormats "15-06-1990".data = some (1990, 6, 15) :=
  c6_format_order.2.2.2.2.2.2 "15-06-1990".data (1990, 6, 15)
    (by decide) (by decide)

/-- C7: `display_format` round-trips with construction:
`displayFormat(makeBirthday("1990-06-15")) == "15.06.1990"`. -/
theorem c7_display_round_trip :
    (makeBirthday "1990-06-15").map display_format = some "15.06.1990" := by
  decide

/-- C10: `makeBirthday` accepts non-zero-padded components
(`"1990-6-5"` succeeds and stores `"1990-06-05"`), and every successfully
constructed `Birthday` stores a string of shape `YYYY-MM-DD` with exactly
two-digit month and day fields (and a four-digit year). -/
theorem c10_zero_padded_canonical :
    makeBirthday "1990-6-5" = some ⟨"1990-06-05"⟩ ∧
    (∀ raw b, makeBirthday raw = some b → canonicalShape b.value) := by
  refine ⟨by decide, ?_⟩
  intro raw b h
  unfold makeBirthday at h
  rcases hs : standardize_date_format (String.mk (pyStrip raw.data)) with _ | c <;>
    rw [hs] at h <;> dsimp only at h
  · exact absurd h (by simp)
  · split at h
    · have hb := Option.some.inj h
      subst hb
      unfold standardize_date_format at hs
      rcases Option.map_eq_some'.1 hs with ⟨r, _, hc⟩
      rw [← hc]
      exact dateStr_shape r.1 r.2.1 r.2.2
    · exact absurd h (by simp)

/-- Witness for C10 at the non-padded input `"1990-6-5"`. -/
theorem c10_zero_padded_canonical_witness :
    canonicalShape (Birthday.mk "1990-06-05").value :=
  c10_zero_padded_canonical.2 "1990-6-5" ⟨"1990-06-05"⟩ (by decide)

/-- C8: `add_birthday` is atomic on failure: when the raw string fails
birthday validation the call signals the error (second component `none`)
and returns the record exactly as it was, birthday included. -/
theorem c8_add_birthday_atomic (r : Record) (s : String)
    (h : makeBirthday s = none) : add_birthday r s = (r, none) := by
  unfold add_birthday
  rw [h]

/-- Witness for C8: a populated record and the invalid input
`"invalid-date"`. -/
theorem c8_add_birthday_atomic_witness :
    add_birthday ⟨⟨"John"⟩, [⟨"1234567890"⟩], some ⟨"1990-06-15"⟩⟩ "invalid-date"
      = (⟨⟨"John"⟩, [⟨"1234567890"⟩], some ⟨"1990-06-15"⟩⟩, none) :=
  c8_add_birthday_atomic _ _ (by decide)

/-- C2 counterexample: the claim's "iff solely ASCII digits" is false.
`Phone.__init__` uses Python `str.isdigit()`, which also accepts non-ASCII
digit characters: the ten-character Arabic-Indic string `arabTen` is
accepted and stored although none of its characters is an ASCII digit. -/
theorem c2_counterexample :
    makePhone arabTen = some ⟨arabTen⟩ ∧
    (pyStrip arabTen.data).all Char.isDigit = false ∧
    (pyStrip arabTen.data).length = 10 := by
  refine ⟨by decide, by decide, by decide⟩

/-- C2 amended: `makePhone` succeeds with stored value equal to the trimmed
input iff the trimmed string is nonempty, of length exactly 10, and every
character passes Python's Unicode-aware `str.isdigit()`; restricted to
ASCII inputs this coincides with the claim's "solely ASCII digits and
length 10". -/
theorem c2_amended (raw : String) :
    (∀ p, makePhone raw = some p ↔
      (pyIsdigit (pyStrip raw.data) = true ∧ (pyStrip raw.data).length = 10 ∧
        p = ⟨String.mk (pyStrip raw.data)⟩)) ∧
    ((∀ c ∈ raw.data, c.toNat < 128) →
      ((makePhone raw).isSome = true ↔
        ((pyStrip raw.data).all Char.isDigit = true ∧
          (pyStrip raw.data).length = 10))) := by
  constructor
  · intro p
    unfold makePhone
    dsimp only
    split
    · rename_i hcond
      rw [Bool.and_eq_true, decide_eq_true_eq] at hcond
      constructor
      · intro h
        exact ⟨hcond.1, hcond.2, (Option.some.inj h).symm⟩
      · intro h
        rw [h.2.2]
    · rename_i hcond
      simp only [Bool.and_eq_true, decide_eq_true_eq] at hcond
      constructor
      · intro h
        exact absurd h (by simp)
      · intro h
        exact absurd ⟨h.1, h.2.1⟩ hcond
  · intro hascii
    have hdig : (pyStrip raw.data).all pyIsDigitChar = (pyStrip raw.data).all Char.isDigit :=
      all_congr_chars _ _ _ (fun c hcmem => pyIsDigitChar_ascii c (hascii c (mem_pyStrip hcmem)))
    unfold makePhone pyIsdigit
    rcases hlen : decide ((pyStrip raw.data).length = 10) with _ | _
    · simp only [decide_eq_false_iff_not] at hlen
      simp [hlen]
    · simp only [decide_eq_true_eq] at hlen
      have hne : (pyStrip raw.data).isEmpty = false := by
        rcases hstrip : pyStrip raw.data with _ | ⟨a, as⟩
        · rw [hstrip] at hlen; simp at hlen
        · rfl
      rcases hall : (pyStrip raw.data).all Char.isDigit with _ | _
      · simp [hne, hdig, hlen, hall]
      · simp [hne, hdig, hlen, hall]

/-- Witness for C2's amended ASCII clause at the valid input
`"1234567890"`. -/
theorem c2_amended_witness :
    (makePhone "1234567890").isSome = true ↔
      ((pyStrip "1234567890".data).all Char.isDigit = true ∧
        (pyStrip "1234567890".data).length = 10) :=
  (c2_amended "1234567890").2 (by decide)

/-- C3 counterexample: `edit_phone` performs no validation on the new
value: editing the only phone of a record to `"abc"` succeeds and stores
`"abc"`, which violates the ten-digit invariant. -/
theorem c3_counterexample :
    edit_phone ⟨⟨"John"⟩, [⟨"1234567890"⟩], none⟩ "1234567890" "abc"
      = some ⟨⟨"John"⟩, [⟨"abc"⟩], none⟩ ∧
    ¬ phoneInvariant "abc" := by
  constructor
  · decide
  · intro h
    exact absurd h.2 (by decide)

/-- C3 amended: `edit_phone` fails with `PhoneNotFound` exactly when no
stored phone equals `oldValue`; when a match exists it overwrites the first
matching phone's value with `newValue` verbatim, with no re-validation, so
the ten-digit invariant survives the edit only under the extra assumption
that `newValue` itself satisfies it (and the edited value is really stored:
a phone with value `newValue` is present afterwards). -/
theorem c3_amended (r : Record) (old nv : String) :
    (edit_phone r old nv = none ↔ ∀ p ∈ r.phones, p.value ≠ old) ∧
    (∀ r', edit_phone r old nv = some r' →
      r'.phones = replaceFirst r.phones old nv ∧
      ((∃ p ∈ r.phones, p.value = old) → (⟨nv⟩ : Phone) ∈ r'.phones) ∧
      (phoneInvariant nv → (∀ p ∈ r.phones, phoneInvariant p.value) →
        ∀ p ∈ r'.phones, phoneInvariant p.value)) := by
  constructor
  · unfold edit_phone find_phone
    rcases hf : r.phones.find? (fun p => p.value = old) with _ | p <;> rw [hf]
    · rw [List.find?_eq_none] at hf
      constructor
      · intro _ p hp
        simpa using hf p hp
      · intro _; rfl
    · have hp := List.find?_some hf
      have hmem := List.mem_of_find?_eq_some hf
      rw [decide_eq_true_eq] at hp
      constructor
      · intro h; exact Option.noConfusion h
      · intro h
        exact absurd hp (h p hmem)
  · intro r' h
    unfold edit_phone find_phone at h
    rcases hf : r.phones.find? (fun p => p.value = old) with _ | p <;> rw [hf] at h
    · exact Option.noConfusion h
    · have hr' := (Option.some.inj h).symm
      subst hr'
      refine ⟨rfl, fun hex => replaceFirst_mem r.phones old nv hex, ?_⟩
      intro hnv hall p hp
      rcases replaceFirst_subset r.phones old nv p hp with hmem | hval
      · exact hall p hmem
      · subst hval; exact hnv

/-- Witness for C3's amended statement: the spec's own example edit,
`editPhone("1234567890","1112223333")` on phones
`["1234567890","5555555555"]`. -/
theorem c3_amended_witness :
    (⟨⟨"John"⟩, [⟨"1112223333"⟩, ⟨"5555555555"⟩], none⟩ : Record).phones
        = replaceFirst [⟨"1234567890"⟩, ⟨"5555555555"⟩] "1234567890" "1112223333" ∧
    ((∃ p ∈ ([⟨"1234567890"⟩, ⟨"5555555555"⟩] : List Phone), p.value = "1234567890") →
      (⟨"1112223333"⟩ : Phone) ∈
        (⟨⟨"John"⟩, [⟨"1112223333"⟩, ⟨"5555555555"⟩], none⟩ : Record).phones) ∧
    (phoneInvariant "1112223333" →
      (∀ p ∈ (⟨⟨"John"⟩, [⟨"1234567890"⟩, ⟨"5555555555"⟩], none⟩ : Record).phones,
        phoneInvariant p.value) →
      ∀ p ∈ (⟨⟨"John"⟩, [⟨"1112223333"⟩, ⟨"5555555555"⟩], none⟩ : Record).phones,
        phoneInvariant p.value) :=
  (c3_amended ⟨⟨"John"⟩, [⟨"1234567890"⟩, ⟨"5555555555"⟩], none⟩
    "1234567890" "1112223333").2
    ⟨⟨"John"⟩, [⟨"1112223333"⟩, ⟨"5555555555"⟩], none⟩ (by decide)

theorem processRecord_congr (t : PyDateTime) (n : String) (r1 r2 : Record)
    (h : r1.birthday = r2.birthday) :
    processRecord t (n, r1) = processRecord t (n, r2) := by
  unfold processRecord
  dsimp only
  rw [h]

/-- C1: the weekend shift at the code's failing edge.  The first conjunct
shows the claimed behavior away from month boundaries: with `today` Monday
2025-06-09, a birthday falling on Saturday 2025-06-14 is reported with
`daysUntil = 7`, the distance to the shifted Monday 2025-06-16, not the raw
Saturday distance 5.  The last two conjuncts show the divergence: 2025-05-31
is also a Saturday, but `replace(day=31+2)` raises `ValueError`, the
handler swallows it, and the record is silently omitted instead of being
shifted to Monday 2025-06-02 (`daysUntil = 3`, inside the window). -/
theorem c1_weekend_shift_eval :
    get_upcoming_birthdays [("S", ⟨⟨"S"⟩, [], some ⟨"2000-06-14"⟩⟩)] ⟨2025, 6, 9, 0⟩
      = [⟨"S", "14.06.2000", 7⟩] ∧
    weekday ⟨2025, 5, 31⟩ = 5 ∧
    get_upcoming_birthdays [("T", ⟨⟨"T"⟩, [], some ⟨"2000-05-31"⟩⟩)] ⟨2025, 5, 30, 0⟩
      = [] := by
  refine ⟨by decide, by decide, by decide⟩

/-- C5: the reference date of `get_upcoming_birthdays` is
`datetime.today()`, which carries the current time of day, not a bare date.
With the clock at 2024-06-10 10:00:00 (Monday), a contact whose birthday
month/day equals today's is *not* reported (the midnight occurrence
compares `<` against the clock value, so it rolls to next year), although
the claim requires inclusion with `daysUntil = 0`; only at exactly
midnight does the claimed behavior occur.  Likewise the spec's example
(birthday 2000-06-12, two days ahead) yields `daysUntil = 1`, not 2, at
10:00. -/
theorem c5_time_component_eval :
    get_upcoming_birthdays [("X", ⟨⟨"X"⟩, [], some ⟨"2000-06-10"⟩⟩)] ⟨2024, 6, 10, 36000⟩
      = [] ∧
    get_upcoming_birthdays [("X", ⟨⟨"X"⟩, [], some ⟨"2000-06-10"⟩⟩)] ⟨2024, 6, 10, 0⟩
      = [⟨"X", "10.06.2000", 0⟩] ∧
    get_upcoming_birthdays [("A", ⟨⟨"A"⟩, [], some ⟨"2000-06-12"⟩⟩)] ⟨2024, 6, 10, 36000⟩
      = [⟨"A", "12.06.2000", 1⟩] := by
  refine ⟨by decide, by decide, by decide⟩

/-- C4 counterexample: in the source, `get_upcoming_birthdays(self)` takes
no reference-date parameter; `today` is `datetime.today()` (line 115), the
ambient clock.  `today` appears here as the explicit model of that clock
reading: with the book fixed and no caller-supplied input changed, two
clock readings give different results, refuting "no dependence on hidden
global time". -/
theorem c4_counterexample :
    get_upcoming_birthdays [("A", ⟨⟨"A"⟩, [], some ⟨"2000-06-12"⟩⟩)] ⟨2024, 6, 10, 0⟩ ≠
    get_upcoming_birthdays [("A", ⟨⟨"A"⟩, [], some ⟨"2000-06-12"⟩⟩)] ⟨2024, 1, 1, 0⟩ := by
  decide

/-- C4 amended: `get_upcoming_birthdays` reads the clock internally rather
than taking `today` from the caller; modelled with the clock reading as an
explicit input it is deterministic, and its result depends only on each
entry's name and birthday value (never on phones): two books that agree on
names and birthdays give equal results under the same clock reading. -/
theorem c4_amended_deterministic (t : PyDateTime) :
    ∀ b1 b2 : List (String × Record),
      b1.map (fun p => (p.1, p.2.birthday)) = b2.map (fun p => (p.1, p.2.birthday)) →
      get_upcoming_birthdays b1 t = get_upcoming_birthdays b2 t := by
  intro b1
  induction b1 with
  | nil =>
    intro b2 h
    cases b2 with
    | nil => rfl
    | cons q qs => simp at h
  | cons p ps ih =>
    intro b2 h
    cases b2 with
    | nil => simp at h
    | cons q qs =>
      simp only [List.map_cons, List.cons.injEq, Prod.mk.injEq] at h
      obtain ⟨⟨hn, hb⟩, htl⟩ := h
      unfold get_upcoming_birthdays
      simp only [List.filterMap_cons]
      have hpq : processRecord t p = processRecord t q := by
        obtain ⟨pn, pr⟩ := p
        obtain ⟨qn, qr⟩ := q
        dsimp only at hn hb
        subst hn
        exact processRecord_congr t pn pr qr hb
      have htail := ih qs htl
      unfold get_upcoming_birthdays at htail
      rw [hpq, htail]

/-- Witness for C4's amended statement: two one-record books that differ
only in their phone lists produce the same result. -/
theorem c4_amended_deterministic_witness :
    get_upcoming_birthdays [("A", ⟨⟨"A"⟩, [⟨"1234567890"⟩], some ⟨"2000-06-12"⟩⟩)]
        ⟨2024, 6, 10, 0⟩
      = get_upcoming_birthdays [("A", ⟨⟨"A"⟩, [⟨"5555555555"⟩, ⟨"9876543210"⟩],
          some ⟨"2000-06-12"⟩⟩)] ⟨2024, 6, 10, 0⟩ :=
  c4_amended_deterministic ⟨2024, 6, 10, 0⟩
    [("A", ⟨⟨"A"⟩, [⟨"1234567890"⟩], some ⟨"2000-06-12"⟩⟩)]
    [("A", ⟨⟨"A"⟩, [⟨"5555555555"⟩, ⟨"9876543210"⟩], some ⟨"2000-06-12"⟩⟩)]
    (by decide)

/-- C9: when the weekend shift would run past the end of the month
(`day + daysToAdd` exceeds the month's length), the `replace(day=...)` call
raises `ValueError`, the `except` on line 146 catches it, and the record is
silently omitted from the result: no invalid date is produced and no error
reaches the caller. -/
theorem c9_weekend_overflow_skips (t : PyDateTime) (pair : String × Record)
    (b : Birthday) (y m d : Nat) (n2 : PyDate)
    (hb : pair.2.birthday = some b)
    (hp : parseYMDf b.value.data = some (y, m, d))
    (ha : yearAdjust t m d = some n2)
    (hw : weekday n2 = 5 ∨ weekday n2 = 6)
    (ho : daysInMonth n2.year n2.month < n2.day + (7 - weekday n2)) :
    processRecord t pair = none := by
  have hshift : weekendShift n2 = none := by
    rcases hw with h | h <;> rw [h] at ho <;>
      simp only [weekendShift, pyReplaceDay, h] <;>
      rw [if_pos (by decide)] <;> rw [if_neg] <;>
      simp only [Bool.and_eq_true, decide_eq_true_eq, not_and] <;>
      omega
  unfold processRecord
  rw [hb]
  dsimp only
  rw [hp]
  dsimp only
  rw [ha]
  dsimp only
  rw [hshift]

/-- Witness for C9: Saturday 2025-05-31 is day 31 of May, so the +2 shift
overflows and the record is skipped. -/
theorem c9_weekend_overflow_skips_witness :
    processRecord ⟨2025, 5, 30, 0⟩ ("S", ⟨⟨"S"⟩, [], some ⟨"2000-05-31"⟩⟩) = none :=
  c9_weekend_overflow_skips ⟨2025, 5, 30, 0⟩ _ ⟨"2000-05-31"⟩ 2000 5 31 ⟨2025, 5, 31⟩
    rfl (by decide) (by decide) (by decide) (by decide)

end Classes
